import Mathlib

/-!
# GoChi: the example server of `server.go`

A shallow embedding of `server.go`: the request context, the handlers, the two
middlewares `ArticleCtx` and `AdminOnly`, and the router that `main` builds.

Conventions of the embedding.

* A Go `http.Handler` is a function from the request and the observable world
  (what was sent to the response sink, what was printed) to either a fault (a Go
  panic) or the new world.
* A Go middleware `func(next http.Handler) http.Handler` is a function from
  handlers to handlers.
* A Go `context.Context` is the chain of its `WithValue` entries, the most recent
  first.
-/

namespace GoChi

/-! ## Data model of `server.go` -/

/-- The struct `Article` (server.go, lines 103-105). -/
structure Article where
  Title : String
  deriving DecidableEq, Repr

/-- The struct `YourPermissionType` (server.go, lines 134-135): it has no field. -/
structure YourPermissionType where
  deriving DecidableEq, Repr

/-- Keys of request-context entries. `server.go` uses the plain strings `"article"` and
`"acl.permission"`; the router keeps the path parameters under a key of its own, which
no string equals. -/
inductive Key where
  | str (s : String)
  | routeCtx
  deriving DecidableEq, Repr

/-- A Go value of dynamic type `any`, as far as `server.go` tells the types apart:
a `*Article` (`none` is the nil pointer), a `YourPermissionType`, the path parameters
of the matched route, or a value of any other type (named by `typeName`). -/
inductive Value where
  | articlePtr (p : Option Article)
  | permission (p : YourPermissionType)
  | routeParams (ps : List (String × String))
  | other (typeName : String) (repr : String)
  deriving DecidableEq, Repr

/-- A `context.Context`: the entries added by `context.WithValue`, most recent first. -/
abbrev Context := List (Key × Value)

/-- The Go call `context.WithValue(ctx, key, val)`: a new context, `ctx` is unchanged. -/
def Context.WithValue (ctx : Context) (key : Key) (val : Value) : Context :=
  (key, val) :: ctx

/-- The Go call `ctx.Value(key)`: walks the chain from the most recent entry backward;
`none` is the nil interface returned when the key was never set. -/
def Context.Value : Context → Key → Option Value
  | [], _ => none
  | (k, v) :: rest, key => if k = key then some v else Context.Value rest key

/-- HTTP methods of the requests. -/
inductive Method where
  | GET | POST | PUT | DELETE | PATCH | HEAD | OPTIONS
  deriving DecidableEq, Repr

/-- The part of `*http.Request` that `server.go` reads. -/
structure Request where
  method : Method
  path : String
  ctx : Context
  deriving Repr

/-- The Go call `r.Context()`. -/
def Request.Context (r : Request) : GoChi.Context := r.ctx

/-- The Go call `r.WithContext(ctx)`: a copy of the request with another context. -/
def Request.WithContext (r : Request) (ctx : GoChi.Context) : Request :=
  { r with ctx := ctx }

/-- One response as the response sink receives it: a status and a body. -/
structure Response where
  status : Nat
  body : String
  deriving DecidableEq, Repr

/-- What a handler can be observed to do: the responses it sent to the
`http.ResponseWriter` and the lines it printed with `fmt.Println`, oldest first. -/
structure World where
  sink : List Response
  stdout : List String
  deriving DecidableEq, Repr

/-- A Go panic, here only the nil-pointer dereference. -/
inductive Fault where
  | nilDereference
  deriving DecidableEq, Repr

/-- An `http.Handler`: `ServeHTTP(w, r)` either panics or leaves a new world. -/
abbrev Handler := Request → World → Except Fault World

/-- A middleware, `func(next http.Handler) http.Handler`. -/
abbrev Middleware := Handler → Handler

/-! ## Library calls used by `server.go` -/

/-- Modelled from the spec: `net/http` is not part of the repository. `w.Write(b)` on
the response sink sends one response, with the default status 200 and body `b`. -/
def World.Write (w : World) (b : String) : World :=
  { w with sink := w.sink ++ [⟨200, b⟩] }

/-- The Go function `http.StatusText` on the three codes `server.go` passes to it. -/
def StatusText (code : Nat) : String :=
  if code = 403 then "Forbidden"
  else if code = 404 then "Not Found"
  else if code = 405 then "Method Not Allowed"
  else if code = 422 then "Unprocessable Entity"
  else ""

/-- Modelled from the spec: `net/http` is not part of the repository. `http.Error(w,
text, code)` sends one response with status `code`, its body is `text` and a newline. -/
def httpError (w : World) (text : String) (code : Nat) : World :=
  { w with sink := w.sink ++ [⟨code, text ++ "\n"⟩] }

/-- The Go call `fmt.Println(s)`: one line on standard output. -/
def Println (w : World) (s : String) : World :=
  { w with stdout := w.stdout ++ [s] }

/-- Lookup in the parameter bindings of a matched route (in binding order), the last
binding of the name first; the empty string when the name is not bound. -/
def lookupParam (ps : List (String × String)) (name : String) : String :=
  match ps.reverse.find? (fun kv => kv.1 == name) with
  | some kv => kv.2
  | none => ""

/-- Modelled from the spec: `chi.URLParam` is not part of the repository. The path
parameters bound at match time are exposed through the request context; the empty
string when there is no binding. -/
def URLParam (r : Request) (name : String) : String :=
  match r.Context.Value Key.routeCtx with
  | some (Value.routeParams ps) => lookupParam ps name
  | _ => ""

/-! ## Handlers and middlewares of `server.go` -/

/-- The handler of `GET /` (server.go, lines 28-30). -/
def rootHandler : Handler := fun _ w =>
  .ok (w.Write "hi")

/-- The handler `listArticles` (server.go, lines 58-60). -/
def listArticles : Handler := fun _ w =>
  .ok (Println w "List articles")

/-- The handler `listArticlesByDate` (server.go, lines 62-64). -/
def listArticlesByDate : Handler := fun _ w =>
  .ok (Println w "List articles by date")

/-- The handler `createArticle` (server.go, lines 66-68). -/
def createArticle : Handler := fun _ w =>
  .ok (Println w "Create article")

/-- The handler `searchArticles` (server.go, lines 70-72). -/
def searchArticles : Handler := fun _ w =>
  .ok (Println w "Search articles")

/-- The handler `getArticleBySlug` (server.go, lines 74-76). -/
def getArticleBySlug : Handler := fun _ w =>
  .ok (Println w "Get article by slug")

/-- The handler `updateArticle` (server.go, lines 78-80). -/
def updateArticle : Handler := fun _ w =>
  .ok (Println w "Update article")

/-- The handler `deleteArticle` (server.go, lines 82-84). -/
def deleteArticle : Handler := fun _ w =>
  .ok (Println w "Delete article")

/-- The function `dbGetArticle` (server.go, lines 99-101): the returned pointer and the
returned error (`none` is the nil error). -/
def dbGetArticle (articleId : String) : Option Article × Option String :=
  (some { Title := articleId }, none)

/-- The middleware `ArticleCtx` (server.go, lines 86-97), with the lookup it calls
(`dbGetArticle` in the source) as a parameter. -/
def ArticleCtx (lookup : String → Option Article × Option String) : Middleware :=
  fun next r w =>
    let articleID := URLParam r "articleID"
    match lookup articleID with
    | (_, some _) => .ok (httpError w (StatusText 404) 404)
    | (article, none) =>
      let ctx := r.Context.WithValue (Key.str "article") (Value.articlePtr article)
      next (r.WithContext ctx) w

/-- The type assertion `v.(*Article)` with its `ok` result: `none` when `v` is the nil
interface or has another dynamic type. -/
def asArticlePtr : Option Value → Option (Option Article)
  | some (Value.articlePtr p) => some p
  | _ => none

/-- The handler `getArticle` (server.go, lines 107-115). Reading `article.Title`
through a nil pointer panics. -/
def getArticle : Handler := fun r w =>
  let ctx := r.Context
  match asArticlePtr (ctx.Value (Key.str "article")) with
  | none => .ok (httpError w (StatusText 422) 422)
  | some none => .error Fault.nilDereference
  | some (some article) => .ok (w.Write ("title:" ++ article.Title))

/-- The handler `adminIndex` (server.go, lines 118-120). -/
def adminIndex : Handler := fun _ w =>
  .ok (Println w "Admin index")

/-- The handler `adminListAccounts` (server.go, lines 122-124). -/
def adminListAccounts : Handler := fun _ w =>
  .ok (Println w "Admin list accounts")

/-- The method `YourPermissionType.IsAdmin` (server.go, lines 137-139). -/
def YourPermissionType.IsAdmin (_p : YourPermissionType) : Bool :=
  false

/-- The type assertion `v.(YourPermissionType)` with its `ok` result. -/
def asPermission : Option Value → Option YourPermissionType
  | some (Value.permission p) => some p
  | _ => none

/-- The middleware `AdminOnly` (server.go, lines 141-151), with the check it calls
(`perm.IsAdmin()` in the source) as a parameter. -/
def AdminOnly (isAdmin : YourPermissionType → Bool) : Middleware :=
  fun next r w =>
    let ctx := r.Context
    match asPermission (ctx.Value (Key.str "acl.permission")) with
    | none => .ok (httpError w (StatusText 403) 403)
    | some perm =>
      if !isAdmin perm then .ok (httpError w (StatusText 403) 403)
      else next r w

/-! ## The router

The router of `main` comes from the package `chi`, which is not part of the repository.
It is modelled from the specification: the path matcher (section 4.1), the middleware
chain builder (section 4.2), the router with its mounts (section 4.3) and the dispatch of
one request (section 4.5). The route table is the one `main` registers.
-/

/-- Names of the terminal handlers that `server.go` registers. -/
inductive HandlerId where
  | root | listArticles | listArticlesByDate | createArticle | searchArticles
  | getArticleBySlug | getArticle | updateArticle | deleteArticle
  | adminIndex | adminListAccounts
  deriving DecidableEq, Repr

/-- Names of the middlewares that `server.go` registers with `Use`. -/
inductive MiddlewareId where
  | RequestID | RealIP | Logger | Recoverer | Timeout | ArticleCtx | AdminOnly
  deriving DecidableEq, Repr

/-- Parameter bindings of a match, in the order of the pattern. -/
abbrev Bindings := List (String × String)

/-- Modelled from the spec: the kinds of pattern segment of section 3, a literal, a named
parameter, or a named parameter with a constraint on the matched text. -/
inductive Piece where
  | lit (text : String)
  | param (name : String)
  | constrained (name : String) (constraint : List Char → Bool)

/-- Modelled from the spec: one segment of a pattern. The spec has one piece per segment;
`main` also registers `/{month}-{day}-{year}`, a segment of three parameters with the
literal `-` between them, so a segment is a sequence of pieces. -/
abbrev Segment := List Piece

/-- Modelled from the spec: a pattern is the ordered sequence of its segments. -/
abbrev Pattern := List Segment

/-- Modelled from the spec: a route is a method, a pattern, optional middleware of its own
and a handler (sections 3 and 4.3). -/
structure Route where
  method : Method
  pattern : Pattern
  middlewares : List MiddlewareId
  handler : HandlerId

/-- Modelled from the spec: the path is split into segments on the path separator
(section 4.1); `cur` is the segment being read, reversed. Empty segments are dropped. -/
def splitPathAux : List Char → List Char → List (List Char)
  | [], cur => if cur.isEmpty then [] else [cur.reverse]
  | c :: cs, cur =>
    if c = '/' then
      if cur.isEmpty then splitPathAux cs [] else cur.reverse :: splitPathAux cs []
    else splitPathAux cs (c :: cur)

/-- The segments of a request path. -/
def splitPath (path : String) : List (List Char) :=
  splitPathAux path.data []

/-- Remove the literal `text` from the front of the input, if it is there. -/
def stripLit : List Char → List Char → Option (List Char)
  | [], cs => some cs
  | _ :: _, [] => none
  | t :: ts, c :: cs => if t = c then stripLit ts cs else none

/-- The ways to cut the input into a non-empty front and the rest, shortest front first. -/
def splits : List Char → List (List Char × List Char)
  | [] => []
  | c :: cs => ([c], cs) :: (splits cs).map (fun p => (c :: p.1, p.2))

/-- Modelled from the spec: matching one segment (section 4.1). A literal matches only
the identical text; a parameter matches any non-empty text and binds it; a constrained
parameter matches only text that satisfies the constraint and binds it. A parameter
followed by further pieces takes the shortest text after which the rest matches. -/
def matchPieces : List Piece → List Char → Option Bindings
  | [], cs => if cs.isEmpty then some [] else none
  | Piece.lit text :: rest, cs =>
    match stripLit text.data cs with
    | some cs1 => matchPieces rest cs1
    | none => none
  | Piece.param name :: rest, cs =>
    (splits cs).findSome? (fun p =>
      (matchPieces rest p.2).map (fun bs => (name, String.mk p.1) :: bs))
  | Piece.constrained name constraint :: rest, cs =>
    (splits cs).findSome? (fun p =>
      if constraint p.1 then
        (matchPieces rest p.2).map (fun bs => (name, String.mk p.1) :: bs)
      else none)

/-- Modelled from the spec: a pattern matches a path when it has as many segments and
each pattern segment matches the path segment at its position. -/
def matchPattern : Pattern → List (List Char) → Option Bindings
  | [], [] => some []
  | seg :: segs, s :: ss =>
    match matchPieces seg s with
    | some b1 =>
      match matchPattern segs ss with
      | some b2 => some (b1 ++ b2)
      | none => none
    | none => none
  | _, _ => none

/-- Modelled from the spec: a mount pattern matches the front of the path; the result
has the bindings and the path that is left after the mount point is stripped
(section 4.3). -/
def matchMount : Pattern → List (List Char) → Option (Bindings × List (List Char))
  | [], ss => some ([], ss)
  | _ :: _, [] => none
  | seg :: segs, s :: ss =>
    match matchPieces seg s with
    | some b1 =>
      match matchMount segs ss with
      | some (b2, left) => some (b1 ++ b2, left)
      | none => none
    | none => none

/-- Modelled from the spec: specificity of one piece (section 4.1), literal over
constrained parameter over unconstrained parameter. -/
def Piece.rank : Piece → Nat
  | Piece.lit _ => 2
  | Piece.constrained _ _ => 1
  | Piece.param _ => 0

/-- The specificities of a pattern, position by position from its start. -/
def Pattern.ranks (p : Pattern) : List Nat :=
  p.flatten.map Piece.rank

/-- Modelled from the spec: `moreSpecific a b` holds when, at the first position where
the two differ, `a` is the more specific (section 4.1). -/
def moreSpecific : List Nat → List Nat → Bool
  | a :: as, b :: bs =>
    if b < a then true else if a < b then false else moreSpecific as bs
  | _, _ => false

/-- Modelled from the spec: among the routes of the method whose pattern matches, the
most specific one; the first registered wins ties. `best` is the choice so far. -/
def pickRoute : Option (Route × Bindings) → List Route → Method → List (List Char) →
    Option (Route × Bindings)
  | best, [], _, _ => best
  | best, rt :: rest, m, segs =>
    if rt.method = m then
      match matchPattern rt.pattern segs with
      | some bs =>
        match best with
        | none => pickRoute (some (rt, bs)) rest m segs
        | some (b, bb) =>
          if moreSpecific rt.pattern.ranks b.pattern.ranks then
            pickRoute (some (rt, bs)) rest m segs
          else pickRoute (some (b, bb)) rest m segs
      | none => pickRoute best rest m segs
    else pickRoute best rest m segs

/-- Modelled from the spec: the contract `match(method, path)` of the path matcher
(section 4.1); `none` is `NoMatch`. -/
def matchRoute (routes : List Route) (m : Method) (segs : List (List Char)) :
    Option (Route × Bindings) :=
  pickRoute none routes m segs

/-- Does the path match a route of the table under some method. -/
def pathKnown (routes : List Route) (segs : List (List Char)) : Bool :=
  routes.any (fun rt => (matchPattern rt.pattern segs).isSome)

mutual
/-- Modelled from the spec: a router owns its middleware sequence, its route table and
its mounted sub-routers (section 3). -/
inductive Router where
  | mk (middlewares : List MiddlewareId) (routes : List Route) (mounts : Mounts)
/-- The mounted sub-routers of a router with their mount patterns, in the order of
registration. -/
inductive Mounts where
  | nil
  | cons (pattern : Pattern) (sub : Router) (rest : Mounts)
end

/-- Modelled from the spec: the result of `resolve` (section 4.3). A resolved request
has its middleware chain, outermost first, its terminal handler and its bindings. -/
inductive Resolved where
  | found (chain : List MiddlewareId) (handler : HandlerId) (params : Bindings)
  | notFound
  | methodNotAllowed
  deriving DecidableEq, Repr

/-- Modelled from the spec: among the mounts that could serve the request, the one with
the longest mount pattern, the first registered on ties (section 4.3). `best` is the
choice so far, with the length of its mount pattern. -/
def pickMount : Option (Nat × List MiddlewareId × HandlerId × Bindings) →
    List (Nat × Resolved) → Option (Nat × List MiddlewareId × HandlerId × Bindings)
  | best, [] => best
  | best, (n, Resolved.found chain h bs) :: rest =>
    match best with
    | none => pickMount (some (n, chain, h, bs)) rest
    | some (k, c) =>
      if k < n then pickMount (some (n, chain, h, bs)) rest
      else pickMount (some (k, c)) rest
  | best, _ :: rest => pickMount best rest

/-- Is one of the delegations a `MethodNotAllowed`. -/
def anyMethodNotAllowed (cands : List (Nat × Resolved)) : Bool :=
  cands.any (fun c => c.2 = Resolved.methodNotAllowed)

mutual
/-- Modelled from the spec: `resolve` (section 4.3). The routes owned by this router are
checked first; if none matches, the request is delegated to the mounts whose pattern
matches the front of the path, the longest first, with the mount point stripped. The
chain of a request served by a mount is this router's middleware followed by the chain
the sub-router resolves. -/
def Router.resolve : Router → Method → List (List Char) → Resolved
  | Router.mk mws routes mounts, m, segs =>
    match matchRoute routes m segs with
    | some (rt, bs) => Resolved.found (mws ++ rt.middlewares) rt.handler bs
    | none =>
      match pickMount none (Mounts.delegate mounts m segs) with
      | some (_, chain, h, bs) => Resolved.found (mws ++ chain) h bs
      | none =>
        if pathKnown routes segs || anyMethodNotAllowed (Mounts.delegate mounts m segs) then
          Resolved.methodNotAllowed
        else Resolved.notFound
/-- The delegations to the mounts whose pattern matches the front of the path: the
length of the mount pattern and what the sub-router resolves, the bindings of the mount
pattern before those of the sub-router. -/
def Mounts.delegate : Mounts → Method → List (List Char) → List (Nat × Resolved)
  | Mounts.nil, _, _ => []
  | Mounts.cons pattern sub rest, m, segs =>
    match matchMount pattern segs with
    | some (b1, left) =>
      (pattern.length,
        match Router.resolve sub m left with
        | Resolved.found chain h b2 => Resolved.found chain h (b1 ++ b2)
        | other => other) :: Mounts.delegate rest m segs
    | none => Mounts.delegate rest m segs
end

/-! ## The route table of `main` -/

/-- The constraint `[a-z-]+` of the route `/{articleSlug:[a-z-]+}` (server.go, line 41):
the whole text is one or more characters, each a lowercase letter or a hyphen. -/
def slugConstraint (s : List Char) : Bool :=
  !s.isEmpty && s.all (fun c => ('a'.val ≤ c.val && c.val ≤ 'z'.val) || c = '-')

/-- The sub-router of `r.Route("/{articleID}", ...)` (server.go, lines 44-49). -/
def articleRouter : Router :=
  Router.mk [MiddlewareId.ArticleCtx]
    [ ⟨Method.GET, [], [], HandlerId.getArticle⟩,
      ⟨Method.PUT, [], [], HandlerId.updateArticle⟩,
      ⟨Method.DELETE, [], [], HandlerId.deleteArticle⟩ ]
    Mounts.nil

/-- The sub-router of `r.Route("/articles", ...)` (server.go, lines 33-50); `Route`
builds a sub-router and mounts it at the pattern. -/
def articlesRouter : Router :=
  Router.mk []
    [ ⟨Method.GET, [], [], HandlerId.listArticles⟩,
      ⟨Method.GET,
        [[Piece.param "month", Piece.lit "-", Piece.param "day", Piece.lit "-",
          Piece.param "year"]], [], HandlerId.listArticlesByDate⟩,
      ⟨Method.POST, [], [], HandlerId.createArticle⟩,
      ⟨Method.GET, [[Piece.lit "search"]], [], HandlerId.searchArticles⟩,
      ⟨Method.GET, [[Piece.constrained "articleSlug" slugConstraint]], [],
        HandlerId.getArticleBySlug⟩ ]
    (Mounts.cons [[Piece.param "articleID"]] articleRouter Mounts.nil)

/-- The router of `adminRouter()` (server.go, lines 126-132). -/
def adminRouter : Router :=
  Router.mk [MiddlewareId.AdminOnly]
    [ ⟨Method.GET, [], [], HandlerId.adminIndex⟩,
      ⟨Method.GET, [[Piece.lit "accounts"]], [], HandlerId.adminListAccounts⟩ ]
    Mounts.nil

/-- The router `r` of `main` (server.go, lines 15-53). -/
def mainRouter : Router :=
  Router.mk
    [MiddlewareId.RequestID, MiddlewareId.RealIP, MiddlewareId.Logger,
      MiddlewareId.Recoverer, MiddlewareId.Timeout]
    [ ⟨Method.GET, [], [], HandlerId.root⟩ ]
    (Mounts.cons [[Piece.lit "articles"]] articlesRouter
      (Mounts.cons [[Piece.lit "admin"]] adminRouter Mounts.nil))

/-- Resolution of a request of `main`, by method and path. -/
def resolveMain (m : Method) (path : String) : Resolved :=
  mainRouter.resolve m (splitPath path)

/-! ## Composition and dispatch -/

/-- The handler that a name of `HandlerId` stands for. -/
def handlerOf : HandlerId → Handler
  | HandlerId.root => rootHandler
  | HandlerId.listArticles => listArticles
  | HandlerId.listArticlesByDate => listArticlesByDate
  | HandlerId.createArticle => createArticle
  | HandlerId.searchArticles => searchArticles
  | HandlerId.getArticleBySlug => getArticleBySlug
  | HandlerId.getArticle => getArticle
  | HandlerId.updateArticle => updateArticle
  | HandlerId.deleteArticle => deleteArticle
  | HandlerId.adminIndex => adminIndex
  | HandlerId.adminListAccounts => adminListAccounts

/-- The middleware that a name of `MiddlewareId` stands for. The five middlewares of the
package `chi/middleware` are not part of the repository; they are the parameter
`stock`. -/
def middlewareOf (stock : MiddlewareId → Middleware) : MiddlewareId → Middleware
  | MiddlewareId.ArticleCtx => ArticleCtx dbGetArticle
  | MiddlewareId.AdminOnly => AdminOnly YourPermissionType.IsAdmin
  | other => stock other

/-- Modelled from the spec: the middleware chain builder (section 4.2). The terminal
handler is wrapped by the last middleware of the list, that by the one before, and so
on: the first middleware of the list is the outermost. -/
def build : List Middleware → Handler → Handler
  | [], h => h
  | mw :: rest, h => mw (build rest h)

/-- Modelled from the spec: the dispatch of one request (section 4.5). The request is
resolved, the bound path parameters are put in the request context and the composed
chain is run; `NoMatch` gives a 404 response and `MethodNotAllowed` a 405 response
(section 7). -/
def Router.ServeHTTP (stock : MiddlewareId → Middleware) (rt : Router) : Handler :=
  fun r w =>
    match rt.resolve r.method (splitPath r.path) with
    | Resolved.found chain h bs =>
      build (chain.map (middlewareOf stock)) (handlerOf h)
        (r.WithContext (r.Context.WithValue Key.routeCtx (Value.routeParams bs))) w
    | Resolved.notFound => .ok (httpError w (StatusText 404) 404)
    | Resolved.methodNotAllowed => .ok (httpError w (StatusText 405) 405)

mutual
/-- Modelled from the spec: the effective table of a router (section 3): for each route
that the router or one of its mounts owns, the full middleware chain (the ancestors'
middleware outer to inner, then the route's own) and the terminal handler. -/
def Router.effective : Router → List (List MiddlewareId × HandlerId)
  | Router.mk mws routes mounts =>
    routes.map (fun rt => (mws ++ rt.middlewares, rt.handler)) ++
      (Mounts.effective mounts).map (fun e => (mws ++ e.1, e.2))
/-- The effective tables of the mounted sub-routers, one after the other. -/
def Mounts.effective : Mounts → List (List MiddlewareId × HandlerId)
  | Mounts.nil => []
  | Mounts.cons _ sub rest => Router.effective sub ++ Mounts.effective rest
end

/-- The root middleware stack of `main` (server.go, lines 18-26), in registration
order. -/
def rootStack : List MiddlewareId :=
  [MiddlewareId.RequestID, MiddlewareId.RealIP, MiddlewareId.Logger,
    MiddlewareId.Recoverer, MiddlewareId.Timeout]

/-- The responses that one invocation of the handler sent to the response sink: what
the sink holds after the call beyond what it held before. `none` when the handler panics
(or if it had removed something from the sink). -/
def sentBy (h : Handler) (r : Request) (w : World) : Option (List Response) :=
  match h r w with
  | .ok w1 =>
    if w1.sink.take w.sink.length = w.sink then some (w1.sink.drop w.sink.length)
    else none
  | .error _ => none

/-- A world in which nothing was sent or printed yet. -/
def freshWorld : World := { sink := [], stdout := [] }

/-- A request as the dispatch hands it to the `{articleID}` sub-router: the path
parameter articleID is bound to `id`. -/
def articleRequest (m : Method) (id : String) : Request :=
  { method := m, path := "/articles/" ++ id,
    ctx := [(Key.routeCtx, Value.routeParams [("articleID", id)])] }

/-- A lookup that finds nothing: it returns the nil pointer and an error. -/
def failingLookup (_articleId : String) : Option Article × Option String :=
  (none, some "sql: no rows in result set")

/-! ## Routing of the requests of the specification -/

/-- C1: for the route table of `main`, a GET request on each registered literal path
(`/`, `/articles`, `/articles/search`, `/admin`, `/admin/accounts`, the mount points also with
their trailing slash) resolves to the handler of that literal pattern. In particular
`GET /articles/search` resolves to `searchArticles`, although the text `search` satisfies
`[a-z-]+`, the slug pattern matches it and the mount pattern `{articleID}` matches it too. -/
theorem literal_precedence_main :
    resolveMain Method.GET "/" = Resolved.found rootStack HandlerId.root [] ∧
    resolveMain Method.GET "/articles" =
      Resolved.found rootStack HandlerId.listArticles [] ∧
    resolveMain Method.GET "/articles/" =
      Resolved.found rootStack HandlerId.listArticles [] ∧
    resolveMain Method.GET "/articles/search" =
      Resolved.found rootStack HandlerId.searchArticles [] ∧
    resolveMain Method.GET "/admin" =
      Resolved.found (rootStack ++ [MiddlewareId.AdminOnly]) HandlerId.adminIndex [] ∧
    resolveMain Method.GET "/admin/" =
      Resolved.found (rootStack ++ [MiddlewareId.AdminOnly]) HandlerId.adminIndex [] ∧
    resolveMain Method.GET "/admin/accounts" =
      Resolved.found (rootStack ++ [MiddlewareId.AdminOnly])
        HandlerId.adminListAccounts [] ∧
    slugConstraint "search".data = true ∧
    matchPattern [[Piece.constrained "articleSlug" slugConstraint]] (splitPath "/search") =
      some [("articleSlug", "search")] ∧
    matchMount [[Piece.param "articleID"]] (splitPath "/search") =
      some ([("articleID", "search")], []) := by
  refine ⟨?_, ?_, ?_, ?_, ?_, ?_, ?_, ?_, ?_, ?_⟩ <;> decide

/-- A text without a hyphen cannot be cut at a hyphen. -/
theorem no_hyphen_cut (s b c : List Char) (hs : '-' ∉ s) : b ++ '-' :: c ≠ s := by
  intro h
  apply hs
  rw [← h]
  simp

/-- Two cuts of the same text at a hyphen, the second after a front `p` without hyphen:
either they are the same cut, or the first is at a later hyphen. -/
theorem first_hyphen_cut (p : List Char) (hp : '-' ∉ p) :
    ∀ (a r s : List Char), a ++ '-' :: r = p ++ '-' :: s →
      (a = p ∧ r = s) ∨ ∃ t, a = p ++ '-' :: t ∧ t ++ '-' :: r = s := by
  induction p with
  | nil =>
    intro a r s h
    cases a with
    | nil => left; simpa using h
    | cons x a =>
      right
      simp only [List.cons_append, List.nil_append, List.cons.injEq] at h
      exact ⟨a, by simp [h.1], h.2⟩
  | cons y p ih =>
    intro a r s h
    have hy : y ≠ '-' := fun e => hp (by simp [e])
    have hp1 : '-' ∉ p := fun e => hp (List.mem_cons_of_mem _ e)
    cases a with
    | nil =>
      simp only [List.cons_append, List.nil_append, List.cons.injEq] at h
      exact absurd h.1.symm hy
    | cons x a =>
      simp only [List.cons_append, List.cons.injEq] at h
      rcases ih hp1 a r s h.2 with ⟨e1, e2⟩ | ⟨t, e1, e2⟩
      · left; exact ⟨by rw [h.1, e1], e2⟩
      · right; exact ⟨t, by rw [h.1, e1]; rfl, e2⟩

/-- C2: for the route table of `main`, `GET /articles/01-16-2017` resolves to
`listArticlesByDate` with the bindings month = 01, day = 16, year = 2017. The chain has
no `ArticleCtx`, so it is not the `{articleID}` sub-router, although the mount pattern
`{articleID}` matches the segment; the slug constraint rejects the segment. The bindings
do not depend on how a segment of several parameters is cut: every cut of the segment at
two hyphens gives these three texts. -/
theorem date_route_main :
    resolveMain Method.GET "/articles/01-16-2017" =
      Resolved.found rootStack HandlerId.listArticlesByDate
        [("month", "01"), ("day", "16"), ("year", "2017")] ∧
    MiddlewareId.ArticleCtx ∉ rootStack ∧
    slugConstraint "01-16-2017".data = false ∧
    matchMount [[Piece.param "articleID"]] (splitPath "/01-16-2017") =
      some ([("articleID", "01-16-2017")], []) ∧
    (∀ a b c : List Char, a ++ '-' :: (b ++ '-' :: c) = "01-16-2017".data →
      a = "01".data ∧ b = "16".data ∧ c = "2017".data) := by
  refine ⟨by decide, by decide, by decide, by decide, ?_⟩
  intro a b c h
  have h1 : a ++ '-' :: (b ++ '-' :: c) = "01".data ++ '-' :: "16-2017".data := h
  rcases first_hyphen_cut "01".data (by decide) _ _ _ h1 with ⟨ea, hb⟩ | ⟨t, _, ht⟩
  · have h2 : b ++ '-' :: c = "16".data ++ '-' :: "2017".data := hb
    rcases first_hyphen_cut "16".data (by decide) _ _ _ h2 with ⟨eb, ec⟩ | ⟨u, _, hu⟩
    · exact ⟨ea, eb, ec⟩
    · exact absurd hu (no_hyphen_cut _ _ _ (by decide))
  · have h2 : t ++ '-' :: (b ++ '-' :: c) = "16".data ++ '-' :: "2017".data := ht
    rcases first_hyphen_cut "16".data (by decide) _ _ _ h2 with ⟨_, hb⟩ | ⟨u, _, hu⟩
    · exact absurd hb (no_hyphen_cut _ _ _ (by decide))
    · exact absurd hu (no_hyphen_cut _ _ _ (by decide))

/-- Witness of C2: the cut of 01-16-2017 into 01, 16 and 2017 is a cut at two hyphens. -/
theorem date_route_main_witness :
    "01".data ++ '-' :: ("16".data ++ '-' :: "2017".data) = "01-16-2017".data ∧
    "01".data = "01".data ∧ "16".data = "16".data ∧ "2017".data = "2017".data :=
  ⟨by decide, date_route_main.2.2.2.2 "01".data "16".data "2017".data (by decide)⟩

/-- C3: for the route table of `main`, `GET /articles/home-is-toronto` resolves to
`getArticleBySlug` with articleSlug = home-is-toronto (the segment satisfies the
constraint), and `GET /articles/123` resolves to `getArticle` behind `ArticleCtx`, the
`GET /` route of the `{articleID}` sub-router, with articleID = 123 (the segment fails the
constraint and, having no hyphen, does not match the date pattern). -/
theorem slug_and_id_routes_main :
    resolveMain Method.GET "/articles/home-is-toronto" =
      Resolved.found rootStack HandlerId.getArticleBySlug
        [("articleSlug", "home-is-toronto")] ∧
    slugConstraint "home-is-toronto".data = true ∧
    resolveMain Method.GET "/articles/123" =
      Resolved.found (rootStack ++ [MiddlewareId.ArticleCtx]) HandlerId.getArticle
        [("articleID", "123")] ∧
    slugConstraint "123".data = false ∧
    matchPattern
      [[Piece.param "month", Piece.lit "-", Piece.param "day", Piece.lit "-",
        Piece.param "year"]] (splitPath "/123") = none := by
  refine ⟨?_, ?_, ?_, ?_, ?_⟩ <;> decide

theorem pickRoute_mem (routes : List Route) (m : Method) (segs : List (List Char)) :
    ∀ (best : Option (Route × Bindings)) (rt : Route) (bs : Bindings),
      pickRoute best routes m segs = some (rt, bs) →
        best = some (rt, bs) ∨ rt ∈ routes := by
  induction routes with
  | nil => intro best rt bs h; left; simpa [pickRoute] using h
  | cons r rest ih =>
    intro best rt bs h
    unfold pickRoute at h
    split at h
    · split at h
      · rename_i bs1 hm
        split at h
        · rcases ih _ _ _ h with h1 | h1
          · right; simp only [Option.some.injEq, Prod.mk.injEq] at h1; simp [h1.1]
          · right; exact List.mem_cons_of_mem _ h1
        · split at h
          · rcases ih _ _ _ h with h1 | h1
            · right; simp only [Option.some.injEq, Prod.mk.injEq] at h1; simp [h1.1]
            · right; exact List.mem_cons_of_mem _ h1
          · rcases ih _ _ _ h with h1 | h1
            · left; exact h1
            · right; exact List.mem_cons_of_mem _ h1
      · rcases ih _ _ _ h with h1 | h1
        · left; exact h1
        · right; exact List.mem_cons_of_mem _ h1
    · rcases ih _ _ _ h with h1 | h1
      · left; exact h1
      · right; exact List.mem_cons_of_mem _ h1

theorem matchRoute_mem {routes : List Route} {m : Method} {segs : List (List Char)}
    {rt : Route} {bs : Bindings} (h : matchRoute routes m segs = some (rt, bs)) :
    rt ∈ routes := by
  rcases pickRoute_mem routes m segs none rt bs h with h1 | h1
  · cases h1
  · exact h1

theorem pickMount_mem (cands : List (Nat × Resolved)) :
    ∀ (best : Option (Nat × List MiddlewareId × HandlerId × Bindings))
      (n : Nat) (chain : List MiddlewareId) (h : HandlerId) (bs : Bindings),
      pickMount best cands = some (n, chain, h, bs) →
        best = some (n, chain, h, bs) ∨ (n, Resolved.found chain h bs) ∈ cands := by
  induction cands with
  | nil => intro best n chain h bs hp; left; simpa [pickMount] using hp
  | cons c rest ih =>
    intro best n chain h bs hp
    obtain ⟨k, res⟩ := c
    cases res with
    | found c1 h1 b1 =>
      cases best with
      | none =>
        simp only [pickMount] at hp
        rcases ih _ _ _ _ _ hp with h2 | h2
        · right
          simp only [Option.some.injEq, Prod.mk.injEq] at h2
          obtain ⟨e1, e2, e3, e4⟩ := h2
          subst e1 e2 e3 e4
          exact List.mem_cons_self _ _
        · right; exact List.mem_cons_of_mem _ h2
      | some b =>
        obtain ⟨k0, c0⟩ := b
        simp only [pickMount] at hp
        split at hp
        · rcases ih _ _ _ _ _ hp with h2 | h2
          · right
            simp only [Option.some.injEq, Prod.mk.injEq] at h2
            obtain ⟨e1, e2, e3, e4⟩ := h2
            subst e1 e2 e3 e4
            exact List.mem_cons_self _ _
          · right; exact List.mem_cons_of_mem _ h2
        · rcases ih _ _ _ _ _ hp with h2 | h2
          · left; exact h2
          · right; exact List.mem_cons_of_mem _ h2
    | notFound =>
      simp only [pickMount] at hp
      rcases ih _ _ _ _ _ hp with h2 | h2
      · left; exact h2
      · right; exact List.mem_cons_of_mem _ h2
    | methodNotAllowed =>
      simp only [pickMount] at hp
      rcases ih _ _ _ _ _ hp with h2 | h2
      · left; exact h2
      · right; exact List.mem_cons_of_mem _ h2

mutual
theorem Router.resolve_effective :
    ∀ (rt : Router) (m : Method) (segs : List (List Char)) (chain : List MiddlewareId)
      (h : HandlerId) (bs : Bindings),
      rt.resolve m segs = Resolved.found chain h bs → (chain, h) ∈ rt.effective
  | Router.mk mws routes mounts, m, segs, chain, h, bs, hr => by
    unfold Router.resolve at hr
    unfold Router.effective
    split at hr
    · rename_i rt b hm
      have hmem := matchRoute_mem hm
      simp only [Resolved.found.injEq] at hr
      obtain ⟨e1, e2, _⟩ := hr
      subst e1 e2
      exact List.mem_append_left _ (List.mem_map.mpr ⟨rt, hmem, rfl⟩)
    · split at hr
      · rename_i k c1 h1 b1 hp
        simp only [Resolved.found.injEq] at hr
        obtain ⟨e1, e2, _⟩ := hr
        subst e1 e2
        rcases pickMount_mem _ _ _ _ _ _ hp with h2 | h2
        · cases h2
        · have := Mounts.delegate_effective mounts m segs k c1 h1 b1 h2
          exact List.mem_append_right _ (List.mem_map.mpr ⟨(c1, h1), this, rfl⟩)
      · split at hr <;> cases hr
theorem Mounts.delegate_effective :
    ∀ (ms : Mounts) (m : Method) (segs : List (List Char)) (n : Nat)
      (chain : List MiddlewareId) (h : HandlerId) (bs : Bindings),
      (n, Resolved.found chain h bs) ∈ ms.delegate m segs → (chain, h) ∈ ms.effective
  | Mounts.nil, m, segs, n, chain, h, bs, hd => by
    simp [Mounts.delegate] at hd
  | Mounts.cons pattern sub rest, m, segs, n, chain, h, bs, hd => by
    unfold Mounts.delegate at hd
    unfold Mounts.effective
    split at hd
    · rename_i b1 left hm
      rcases List.mem_cons.mp hd with h1 | h1
      · simp only [Prod.mk.injEq] at h1
        obtain ⟨_, h2⟩ := h1
        split at h2
        · rename_i c2 h3 b2 hres
          simp only [Resolved.found.injEq] at h2
          obtain ⟨e1, e2, _⟩ := h2
          subst e1 e2
          exact List.mem_append_left _ (Router.resolve_effective sub m left _ _ _ hres)
        · rename_i hne
          exact absurd h2.symm (hne _ _ _)
      · exact List.mem_append_right _ (Mounts.delegate_effective rest m segs _ _ _ _ h1)
    · exact List.mem_append_right _ (Mounts.delegate_effective rest m segs _ _ _ _ hd)
end

/-- C4: for the router of `main`, the chain of `PUT /articles/123` and of
`DELETE /articles/123` is the root stack in registration order (RequestID, RealIP, Logger,
Recoverer, Timeout), then `ArticleCtx`, then the terminal handler (`updateArticle`,
`deleteArticle`); built, the first middleware is the outermost. Whatever request
resolves, `ArticleCtx` is in its chain exactly when its handler is one of the three
routes of the `{articleID}` sub-router. -/
theorem articleCtx_chain_main :
    resolveMain Method.PUT "/articles/123" =
      Resolved.found (rootStack ++ [MiddlewareId.ArticleCtx]) HandlerId.updateArticle
        [("articleID", "123")] ∧
    resolveMain Method.DELETE "/articles/123" =
      Resolved.found (rootStack ++ [MiddlewareId.ArticleCtx]) HandlerId.deleteArticle
        [("articleID", "123")] ∧
    (∀ (stock : MiddlewareId → Middleware) (h : Handler),
      build ((rootStack ++ [MiddlewareId.ArticleCtx]).map (middlewareOf stock)) h =
        stock MiddlewareId.RequestID (stock MiddlewareId.RealIP (stock MiddlewareId.Logger
          (stock MiddlewareId.Recoverer (stock MiddlewareId.Timeout
            (ArticleCtx dbGetArticle h)))))) ∧
    (∀ (m : Method) (path : String) (chain : List MiddlewareId) (h : HandlerId)
      (bs : Bindings), resolveMain m path = Resolved.found chain h bs →
        (MiddlewareId.ArticleCtx ∈ chain ↔
          h = HandlerId.getArticle ∨ h = HandlerId.updateArticle ∨
            h = HandlerId.deleteArticle)) := by
  refine ⟨by decide, by decide, ?_, ?_⟩
  · intro stock h
    rfl
  · intro m path chain h bs hr
    have hmem := Router.resolve_effective mainRouter m (splitPath path) chain h bs hr
    have key : ∀ e ∈ mainRouter.effective,
        (MiddlewareId.ArticleCtx ∈ e.1 ↔
          e.2 = HandlerId.getArticle ∨ e.2 = HandlerId.updateArticle ∨
            e.2 = HandlerId.deleteArticle) := by decide
    exact key _ hmem

/-- Witness of C4: `GET /articles/123` resolves, its handler is `getArticle`, so
`ArticleCtx` is in its chain. -/
theorem articleCtx_chain_main_witness :
    resolveMain Method.GET "/articles/123" =
      Resolved.found (rootStack ++ [MiddlewareId.ArticleCtx]) HandlerId.getArticle
        [("articleID", "123")] ∧
    MiddlewareId.ArticleCtx ∈ rootStack ++ [MiddlewareId.ArticleCtx] :=
  ⟨by decide,
    (articleCtx_chain_main.2.2.2 Method.GET "/articles/123"
      (rootStack ++ [MiddlewareId.ArticleCtx]) HandlerId.getArticle [("articleID", "123")]
      (by decide)).mpr (Or.inl rfl)⟩

/-! ## The middlewares and handlers of `server.go` -/

/-- Binding a string key of the context leaves the path parameters as they were. -/
theorem URLParam_WithValue_str (r : Request) (k : String) (v : Value) (name : String) :
    URLParam (r.WithContext (r.Context.WithValue (Key.str k) v)) name = URLParam r name := by
  simp [URLParam, Request.WithContext, Request.Context, Context.WithValue, Context.Value]

/-- C5: for every lookup, next handler, request and world: if the lookup returns an
error for the articleID parameter of the request, `ArticleCtx` sends the 404 response and
the result does not depend on `next` (it is not invoked); if the lookup returns no error,
`ArticleCtx` sends nothing itself and its result is that of one call of `next`, on the
request with the article bound in its context and on the world as it was. -/
theorem ArticleCtx_lookup (lookup : String → Option Article × Option String)
    (next : Handler) (r : Request) (w : World) :
    ((lookup (URLParam r "articleID")).2 ≠ none →
      ArticleCtx lookup next r w =
        .ok { sink := w.sink ++ [⟨404, "Not Found\n"⟩], stdout := w.stdout }) ∧
    ((lookup (URLParam r "articleID")).2 = none →
      ArticleCtx lookup next r w =
        next (r.WithContext (r.Context.WithValue (Key.str "article")
          (Value.articlePtr (lookup (URLParam r "articleID")).1))) w) := by
  rcases hl : lookup (URLParam r "articleID") with ⟨a, e⟩
  cases e with
  | none => simp [ArticleCtx, hl]
  | some e => simp [ArticleCtx, hl, httpError, StatusText]

/-- Witness of C5: with a lookup that fails, `PUT /articles/123` gets the 404 response
and `updateArticle` prints nothing; with `dbGetArticle`, `updateArticle` runs once. -/
theorem ArticleCtx_lookup_witness :
    ((failingLookup "123").2 ≠ none ∧
      ArticleCtx failingLookup updateArticle (articleRequest Method.PUT "123") freshWorld =
        .ok { sink := [⟨404, "Not Found\n"⟩], stdout := [] }) ∧
    ((dbGetArticle "123").2 = none ∧
      ArticleCtx dbGetArticle updateArticle (articleRequest Method.PUT "123") freshWorld =
        .ok { sink := [], stdout := ["Update article"] }) :=
  ⟨⟨by decide,
      (ArticleCtx_lookup failingLookup updateArticle (articleRequest Method.PUT "123")
        freshWorld).1 (by decide)⟩,
    ⟨by decide,
      (ArticleCtx_lookup dbGetArticle updateArticle (articleRequest Method.PUT "123")
        freshWorld).2 (by decide)⟩⟩

/-- C6: for every check `isAdmin`, next handler, request and world: if the context holds
a `YourPermissionType` under the key acl.permission and the check passes on it,
`AdminOnly` gives the result of `next` on the unchanged request and world; in every other
case (key absent, value of another type, check failing) it sends the 403 response and the
result does not depend on `next`. With `adminListAccounts` as `next`, the handler prints
its line in the first case and nothing is printed in the second. -/
theorem AdminOnly_gate (isAdmin : YourPermissionType → Bool) (next : Handler)
    (r : Request) (w : World) :
    ((∃ p, r.Context.Value (Key.str "acl.permission") = some (Value.permission p) ∧
        isAdmin p = true) →
      AdminOnly isAdmin next r w = next r w ∧
      AdminOnly isAdmin adminListAccounts r w =
        .ok { sink := w.sink, stdout := w.stdout ++ ["Admin list accounts"] }) ∧
    ((¬ ∃ p, r.Context.Value (Key.str "acl.permission") = some (Value.permission p) ∧
        isAdmin p = true) →
      AdminOnly isAdmin next r w =
        .ok { sink := w.sink ++ [⟨403, "Forbidden\n"⟩], stdout := w.stdout } ∧
      AdminOnly isAdmin adminListAccounts r w =
        .ok { sink := w.sink ++ [⟨403, "Forbidden\n"⟩], stdout := w.stdout }) := by
  have gate : ∀ nxt : Handler,
      ((∃ p, r.Context.Value (Key.str "acl.permission") = some (Value.permission p) ∧
          isAdmin p = true) → AdminOnly isAdmin nxt r w = nxt r w) ∧
      ((¬ ∃ p, r.Context.Value (Key.str "acl.permission") = some (Value.permission p) ∧
          isAdmin p = true) →
        AdminOnly isAdmin nxt r w =
          .ok { sink := w.sink ++ [⟨403, "Forbidden\n"⟩], stdout := w.stdout }) := by
    intro nxt
    constructor
    · rintro ⟨p, hv, hp⟩
      simp [AdminOnly, hv, asPermission, hp]
    · intro hno
      cases hv : r.Context.Value (Key.str "acl.permission") with
      | none => simp [AdminOnly, hv, asPermission, httpError, StatusText]
      | some v =>
        cases v with
        | permission p =>
          have hp : isAdmin p = false := by
            cases hb : isAdmin p with
            | false => rfl
            | true => exact absurd ⟨p, hv, hb⟩ hno
          simp [AdminOnly, hv, asPermission, hp, httpError, StatusText]
        | articlePtr a => simp [AdminOnly, hv, asPermission, httpError, StatusText]
        | routeParams ps => simp [AdminOnly, hv, asPermission, httpError, StatusText]
        | other t x => simp [AdminOnly, hv, asPermission, httpError, StatusText]
  refine ⟨fun h => ⟨(gate next).1 h, ?_⟩, fun h => ⟨(gate next).2 h, (gate _).2 h⟩⟩
  rw [(gate adminListAccounts).1 h]
  rfl

/-- Witness of C6: `GET /admin/accounts` with a permission in the context and a check
that passes reaches `adminListAccounts`; with an empty context it gets the 403 response
and nothing is printed. -/
theorem AdminOnly_gate_witness :
    AdminOnly (fun _ => true) adminListAccounts
        { method := Method.GET, path := "/admin/accounts",
          ctx := [(Key.str "acl.permission", Value.permission {})] } freshWorld =
      .ok { sink := [], stdout := ["Admin list accounts"] } ∧
    AdminOnly (fun _ => true) adminListAccounts
        { method := Method.GET, path := "/admin/accounts", ctx := [] } freshWorld =
      .ok { sink := [⟨403, "Forbidden\n"⟩], stdout := [] } :=
  ⟨((AdminOnly_gate (fun _ => true) adminListAccounts
        { method := Method.GET, path := "/admin/accounts",
          ctx := [(Key.str "acl.permission", Value.permission {})] } freshWorld).1
      ⟨{}, by decide, rfl⟩).2,
    ((AdminOnly_gate (fun _ => true) adminListAccounts
        { method := Method.GET, path := "/admin/accounts", ctx := [] } freshWorld).2
      (by rintro ⟨p, hv, _⟩; cases hv)).1⟩

/-- C7: for every request and world, `ArticleCtx` (with `dbGetArticle`) around
`getArticle` sends exactly the response with body title: followed by the articleID
parameter of the request, and no 404 or 422 response; the same holds when the incoming
context already has a value, whatever it is, under the key article. Every string `s` is
the articleID parameter of a request, on which the body is title: followed by `s`. -/
theorem ArticleCtx_getArticle (r : Request) (w : World) :
    ArticleCtx dbGetArticle getArticle r w =
      .ok { sink := w.sink ++ [⟨200, "title:" ++ URLParam r "articleID"⟩],
            stdout := w.stdout } ∧
    (∀ v : Value,
      ArticleCtx dbGetArticle getArticle
          (r.WithContext (r.Context.WithValue (Key.str "article") v)) w =
        .ok { sink := w.sink ++ [⟨200, "title:" ++ URLParam r "articleID"⟩],
              stdout := w.stdout }) ∧
    (∀ (m : Method) (s : String) (v : Value),
      ArticleCtx dbGetArticle getArticle
          ((articleRequest m s).WithContext
            ((articleRequest m s).Context.WithValue (Key.str "article") v)) w =
        .ok { sink := w.sink ++ [⟨200, "title:" ++ s⟩], stdout := w.stdout }) := by
  have main : ∀ q : Request, ArticleCtx dbGetArticle getArticle q w =
      .ok { sink := w.sink ++ [⟨200, "title:" ++ URLParam q "articleID"⟩],
            stdout := w.stdout } := by
    intro q
    simp [ArticleCtx, dbGetArticle, getArticle, Request.WithContext, Request.Context,
      Context.WithValue, Context.Value, asArticlePtr, World.Write]
  have hs : ∀ (m : Method) (s : String), URLParam (articleRequest m s) "articleID" = s := by
    intro m s
    simp [URLParam, articleRequest, Request.Context, Context.Value, lookupParam]
  refine ⟨main r, fun v => ?_, fun m s v => ?_⟩
  · rw [main, URLParam_WithValue_str]
  · rw [main, URLParam_WithValue_str, hs]

/-- C8: for every request whose context has no value under the key article, or has one
that is not a `*Article`, `getArticle` does not panic: it returns, having sent the 422
response and no title: body. -/
theorem getArticle_absent (r : Request) (w : World)
    (h : r.Context.Value (Key.str "article") = none ∨
      ∃ v, r.Context.Value (Key.str "article") = some v ∧ ∀ p, v ≠ Value.articlePtr p) :
    getArticle r w =
      .ok { sink := w.sink ++ [⟨422, "Unprocessable Entity\n"⟩], stdout := w.stdout } := by
  rcases h with h | ⟨v, hv, hne⟩
  · simp [getArticle, h, asArticlePtr, httpError, StatusText]
  · cases v with
    | articlePtr p => exact absurd rfl (hne p)
    | permission p => simp [getArticle, hv, asArticlePtr, httpError, StatusText]
    | routeParams ps => simp [getArticle, hv, asArticlePtr, httpError, StatusText]
    | other t x => simp [getArticle, hv, asArticlePtr, httpError, StatusText]

/-- Witness of C8: `GET /articles/123` handed to `getArticle` without `ArticleCtx`
before it (the context has the path parameters only) gets the 422 response. -/
theorem getArticle_absent_witness :
    (articleRequest Method.GET "123").Context.Value (Key.str "article") = none ∧
    getArticle (articleRequest Method.GET "123") freshWorld =
      .ok { sink := [⟨422, "Unprocessable Entity\n"⟩], stdout := [] } :=
  ⟨by decide,
    getArticle_absent (articleRequest Method.GET "123") freshWorld (Or.inl (by decide))⟩

/-- What a handler sent when it leaves the sink as it was: nothing. -/
theorem sentBy_of_sink_eq {h : Handler} {r : Request} {w : World} (w1 : World)
    (hr : h r w = .ok w1) (hs : w1.sink = w.sink) : sentBy h r w = some [] := by
  simp [sentBy, hr, hs]

/-- What a handler sent when it appended one response to the sink: that response. -/
theorem sentBy_of_sink_append {h : Handler} {r : Request} {w : World} (w1 : World)
    {resp : Response} (hr : h r w = .ok w1) (hs : w1.sink = w.sink ++ [resp]) :
    sentBy h r w = some [resp] := by
  simp [sentBy, hr, hs]

/-- C9, as stated, fails: `listArticles` returns without sending any response (it only
prints), and `getArticle` panics, sending nothing, when the context holds a nil
`*Article`; so not every terminal handler sends exactly one response on every
invocation. -/
theorem one_response_each_fails :
    sentBy (handlerOf HandlerId.listArticles)
        { method := Method.GET, path := "/articles", ctx := [] } freshWorld = some [] ∧
    sentBy (handlerOf HandlerId.getArticle)
        { method := Method.GET, path := "/articles/123",
          ctx := [(Key.str "article", Value.articlePtr none)] } freshWorld = none ∧
    ¬ ∀ (id : HandlerId) (r : Request) (w : World),
        ∃ resp, sentBy (handlerOf id) r w = some [resp] := by
  refine ⟨by decide, by decide, fun hall => ?_⟩
  obtain ⟨resp, hresp⟩ := hall HandlerId.listArticles
    { method := Method.GET, path := "/articles", ctx := [] } freshWorld
  have h0 : sentBy (handlerOf HandlerId.listArticles)
      { method := Method.GET, path := "/articles", ctx := [] } freshWorld = some [] := by
    decide
  rw [h0] at hresp
  cases hresp

/-- C9, amended: on every invocation the handler of `GET /` sends exactly one response
(status 200, body hi); `getArticle` sends exactly one response whenever the context does
not hold a nil `*Article` under the key article; each of the other nine terminal handlers
sends no response: it returns having printed one line. -/
theorem handlers_responses :
    (∀ (r : Request) (w : World), sentBy rootHandler r w = some [⟨200, "hi"⟩]) ∧
    (∀ (r : Request) (w : World),
      asArticlePtr (r.Context.Value (Key.str "article")) ≠ some none →
        ∃ resp, sentBy getArticle r w = some [resp]) ∧
    (∀ (id : HandlerId), id ≠ HandlerId.root → id ≠ HandlerId.getArticle →
      ∀ (r : Request) (w : World),
        sentBy (handlerOf id) r w = some [] ∧
        ∃ line, handlerOf id r w = .ok { sink := w.sink, stdout := w.stdout ++ [line] }) := by
  refine ⟨?_, ?_, ?_⟩
  · intro r w
    exact sentBy_of_sink_append (w.Write "hi") rfl rfl
  · intro r w hnil
    cases hv : asArticlePtr (r.Context.Value (Key.str "article")) with
    | none =>
      refine ⟨⟨422, "Unprocessable Entity\n"⟩, ?_⟩
      apply sentBy_of_sink_append (httpError w (StatusText 422) 422)
      · simp [getArticle, hv]
      · simp [httpError, StatusText]
    | some p =>
      cases p with
      | none => exact absurd hv hnil
      | some a =>
        refine ⟨⟨200, "title:" ++ a.Title⟩, ?_⟩
        apply sentBy_of_sink_append (w.Write ("title:" ++ a.Title))
        · simp [getArticle, hv]
        · rfl
  · intro id h1 h2 r w
    cases id with
    | root => exact absurd rfl h1
    | getArticle => exact absurd rfl h2
    | listArticles => exact ⟨sentBy_of_sink_eq (Println w _) rfl rfl, _, rfl⟩
    | listArticlesByDate => exact ⟨sentBy_of_sink_eq (Println w _) rfl rfl, _, rfl⟩
    | createArticle => exact ⟨sentBy_of_sink_eq (Println w _) rfl rfl, _, rfl⟩
    | searchArticles => exact ⟨sentBy_of_sink_eq (Println w _) rfl rfl, _, rfl⟩
    | getArticleBySlug => exact ⟨sentBy_of_sink_eq (Println w _) rfl rfl, _, rfl⟩
    | updateArticle => exact ⟨sentBy_of_sink_eq (Println w _) rfl rfl, _, rfl⟩
    | deleteArticle => exact ⟨sentBy_of_sink_eq (Println w _) rfl rfl, _, rfl⟩
    | adminIndex => exact ⟨sentBy_of_sink_eq (Println w _) rfl rfl, _, rfl⟩
    | adminListAccounts => exact ⟨sentBy_of_sink_eq (Println w _) rfl rfl, _, rfl⟩

/-- Witness of C9 amended: `getArticle` behind a context that holds an article sends one
response, and `deleteArticle` sends none. -/
theorem handlers_responses_witness :
    (∃ resp, sentBy getArticle
        { method := Method.GET, path := "/articles/123",
          ctx := [(Key.str "article", Value.articlePtr (some { Title := "123" }))] }
        freshWorld = some [resp]) ∧
    sentBy (handlerOf HandlerId.deleteArticle) (articleRequest Method.DELETE "123")
      freshWorld = some [] :=
  ⟨handlers_responses.2.1
      { method := Method.GET, path := "/articles/123",
        ctx := [(Key.str "article", Value.articlePtr (some { Title := "123" }))] }
      freshWorld (by decide),
    (handlers_responses.2.2 HandlerId.deleteArticle (by decide) (by decide)
      (articleRequest Method.DELETE "123") freshWorld).1⟩

/-- With the check of the source, `AdminOnly` around any handler is the handler that
sends the 403 response. -/
theorem AdminOnly_IsAdmin (next : Handler) :
    AdminOnly YourPermissionType.IsAdmin next =
      fun _ w => .ok (httpError w (StatusText 403) 403) := by
  funext r w
  cases hp : asPermission (r.Context.Value (Key.str "acl.permission")) with
  | none => simp [AdminOnly, hp]
  | some p => simp [AdminOnly, hp, YourPermissionType.IsAdmin]

/-- C10: `IsAdmin` is false on every value; hence for every next handler, request and
world (whatever the context holds) `AdminOnly` with this check sends the 403 response and
its result does not depend on `next`. A request served by `adminRouter` ends with one
response of status 403, 404 or 405 and nothing printed, so neither `adminIndex` nor
`adminListAccounts` ran; and in `main` the chain built for a request that resolves to one
of the two is the one built around the 403 handler. -/
theorem admin_check_always_false :
    (∀ p : YourPermissionType, p.IsAdmin = false) ∧
    (∀ (next : Handler) (r : Request) (w : World),
      AdminOnly YourPermissionType.IsAdmin next r w =
        .ok { sink := w.sink ++ [⟨403, "Forbidden\n"⟩], stdout := w.stdout }) ∧
    (∀ (stock : MiddlewareId → Middleware) (r : Request) (w : World),
      ∃ resp, (resp.status = 403 ∨ resp.status = 404 ∨ resp.status = 405) ∧
        adminRouter.ServeHTTP stock r w =
          .ok { sink := w.sink ++ [resp], stdout := w.stdout }) ∧
    (∀ (stock : MiddlewareId → Middleware) (m : Method) (path : String)
      (chain : List MiddlewareId) (h : HandlerId) (bs : Bindings),
      resolveMain m path = Resolved.found chain h bs →
      h = HandlerId.adminIndex ∨ h = HandlerId.adminListAccounts →
        build (chain.map (middlewareOf stock)) (handlerOf h) =
          build (rootStack.map (middlewareOf stock))
            (fun _ w => .ok (httpError w (StatusText 403) 403))) := by
  refine ⟨fun _ => rfl, ?_, ?_, ?_⟩
  · intro next r w
    rw [AdminOnly_IsAdmin]
    rfl
  · intro stock r w
    unfold Router.ServeHTTP
    split
    · rename_i chain h bs hr
      have hmem := Router.resolve_effective adminRouter _ _ chain h bs hr
      have key : ∀ e ∈ adminRouter.effective, e.1 = [MiddlewareId.AdminOnly] := by decide
      have hc : chain = [MiddlewareId.AdminOnly] := key _ hmem
      subst hc
      refine ⟨⟨403, "Forbidden\n"⟩, Or.inl rfl, ?_⟩
      simp only [List.map, middlewareOf, build, AdminOnly_IsAdmin]
      rfl
    · exact ⟨⟨404, "Not Found\n"⟩, Or.inr (Or.inl rfl), rfl⟩
    · exact ⟨⟨405, "Method Not Allowed\n"⟩, Or.inr (Or.inr rfl), rfl⟩
  · intro stock m path chain h bs hr hh
    have hmem := Router.resolve_effective mainRouter m (splitPath path) chain h bs hr
    have key : ∀ e ∈ mainRouter.effective,
        e.2 = HandlerId.adminIndex ∨ e.2 = HandlerId.adminListAccounts →
          e.1 = rootStack ++ [MiddlewareId.AdminOnly] := by decide
    have hc : chain = rootStack ++ [MiddlewareId.AdminOnly] := key _ hmem hh
    subst hc
    simp only [rootStack, List.map, List.cons_append, List.nil_append, middlewareOf, build,
      AdminOnly_IsAdmin]

/-- Witness of C10: in `main`, `GET /admin/accounts` resolves to `adminListAccounts`, and
the chain built for it (here with stock middlewares that only pass on) is the root stack
around the 403 handler. -/
theorem admin_check_always_false_witness :
    resolveMain Method.GET "/admin/accounts" =
      Resolved.found (rootStack ++ [MiddlewareId.AdminOnly]) HandlerId.adminListAccounts [] ∧
    build ((rootStack ++ [MiddlewareId.AdminOnly]).map (middlewareOf (fun _ next => next)))
        (handlerOf HandlerId.adminListAccounts) =
      build (rootStack.map (middlewareOf (fun _ next => next)))
        (fun _ w => .ok (httpError w (StatusText 403) 403)) :=
  ⟨by decide,
    admin_check_always_false.2.2.2 (fun _ next => next) Method.GET "/admin/accounts"
      (rootStack ++ [MiddlewareId.AdminOnly]) HandlerId.adminListAccounts [] (by decide)
      (Or.inr rfl)⟩

/-- The parts together: dispatched by the router of `main` (with stock middlewares that
only pass on), `GET /articles/123` gets the response with body title:123, and
`GET /admin/accounts` gets the 403 response. -/
theorem dispatch_samples :
    mainRouter.ServeHTTP (fun _ next => next)
        { method := Method.GET, path := "/articles/123", ctx := [] } freshWorld =
      .ok { sink := [⟨200, "title:123"⟩], stdout := [] } ∧
    mainRouter.ServeHTTP (fun _ next => next)
        { method := Method.GET, path := "/admin/accounts", ctx := [] } freshWorld =
      .ok { sink := [⟨403, "Forbidden\n"⟩], stdout := [] } :=
  ⟨rfl, rfl⟩

end GoChi
